import Mathlib

/-!
Verification of `src/virt-viewer-util.c` (virt-viewer utility module).

C strings are modelled as `List Char` (the characters before the NUL
terminator); `guint64` values are modelled as natural numbers kept below
2^64 at the points where the C code relies on it; `gint` conversions are
modelled with an explicit two's-complement truncation.  External library
calls (GLib, libxml2, GObject) are modelled at their documented boundary,
as noted in the doc comment of each such definition.
-/

set_option maxHeartbeats 1000000
set_option maxRecDepth 4000

/-! ### Character classification (C locale, as used by the GLib string helpers) -/

/-- C-locale `isspace`. -/
def c_isspace (c : Char) : Bool :=
  c == ' ' || c == '\t' || c == '\n' || c == '\x0b' || c == '\x0c' || c == '\r'

/-- C-locale `isdigit`. -/
def c_isdigit (c : Char) : Bool :=
  '0' ≤ c && c ≤ '9'

/-- Numeric value of a list of decimal digits (most significant first). -/
def digitsVal (ds : List Char) : Nat :=
  ds.foldl (fun a c => a * 10 + (c.toNat - '0'.toNat)) 0

def G_MAXUINT64 : Nat := 2 ^ 64 - 1

/-- Result of `g_ascii_strtoull`: the parsed value and the end pointer,
modelled as the remaining characters starting at the end pointer. -/
structure StrtoullResult where
  value : Nat
  endp : List Char
  deriving DecidableEq, Repr

/-- Modelled at its boundary from GLib's `g_ascii_strtoull` with base 10,
which behaves like the standard C `strtoull` in the C locale: skip leading
whitespace, accept one optional sign (a minus sign negates modulo 2^64),
consume decimal digits, clamp to `G_MAXUINT64` on overflow; when no digits
are consumed the value is 0 and the end pointer is the original input. -/
def g_ascii_strtoull (s : List Char) : StrtoullResult :=
  let ws := s.dropWhile c_isspace
  let signRest : Bool × List Char :=
    match ws with
    | '+' :: t => (false, t)
    | '-' :: t => (true, t)
    | t => (false, t)
  let digits := signRest.2.takeWhile c_isdigit
  let rest := signRest.2.dropWhile c_isdigit
  if digits.isEmpty then
    { value := 0, endp := s }
  else
    let raw := digitsVal digits
    let v :=
      if raw > G_MAXUINT64 then G_MAXUINT64
      else if signRest.1 then (2 ^ 64 - raw) % 2 ^ 64
      else raw
    { value := v, endp := rest }

/-- Auxiliary splitter for `g_strsplit(s, ".", -1)`. -/
def splitDotAux : List Char → List Char → List (List Char)
  | [], acc => [acc.reverse]
  | c :: t, acc => if c == '.' then acc.reverse :: splitDotAux t [] else splitDotAux t (c :: acc)

/-- Modelled at its boundary from GLib's `g_strsplit(s, ".", -1)`: splits at
every dot, keeping empty tokens; as a documented special case the empty
string splits into an empty vector. -/
def g_strsplit_dot (s : List Char) : List (List Char) :=
  if s.isEmpty then [] else splitDotAux s []

/-- Conversion of a `guint64` value to `gint` (32-bit two's complement). -/
def gintOfGuint64 (n : Nat) : Int :=
  let r : Nat := n % 2 ^ 32
  if r < 2 ^ 31 then (r : Int) else (r : Int) - 2 ^ 32

/-- The `retval = m1 - m2` computation of `virt_viewer_compare_version`:
`guint64` subtraction (modulo 2^64) stored into a `gint`. -/
def versionRetval (m1 m2 : Nat) : Int :=
  gintOfGuint64 ((m1 + (2 ^ 64 - m2)) % 2 ^ 64)

/-- The component loop of `virt_viewer_compare_version` (lines 465-484 of
`virt-viewer-util.c`).  Returns the `retval` and whether the
"version string contains suffix" warning was emitted. -/
def compareLoop : List (List Char) → List (List Char) → Int × Bool
  | c1 :: r1, c2 :: r2 =>
    let p1 := g_ascii_strtoull c1
    let p2 := g_ascii_strtoull c2
    let retval := versionRetval p1.value p2.value
    if retval ≠ 0 then (retval, false)
    else if ¬ p1.endp.isEmpty ∨ ¬ p2.endp.isEmpty then (0, true)
    else compareLoop r1 r2
  | v1, v2 =>
    if ¬ v1.isEmpty then (1, false)
    else if ¬ v2.isEmpty then (-1, false)
    else (0, false)

/-- `virt_viewer_compare_version` (non-NULL arguments): split both strings
at dots and run the component loop.  The second component records whether
the suffix warning was emitted. -/
def virt_viewer_compare_version (s1 s2 : List Char) : Int × Bool :=
  compareLoop (g_strsplit_dot s1) (g_strsplit_dot s2)

/-- Spec-side predicate: scanning components in parallel, a component with a
non-numeric suffix is reached at a position whose numeric values (as the
code computes them) are equal, before any position with unequal values. -/
def suffixStops : List (List Char) → List (List Char) → Bool
  | c1 :: r1, c2 :: r2 =>
    let p1 := g_ascii_strtoull c1
    let p2 := g_ascii_strtoull c2
    if versionRetval p1.value p2.value ≠ 0 then false
    else if ¬ p1.endp.isEmpty ∨ ¬ p2.endp.isEmpty then true
    else suffixStops r1 r2
  | _, _ => false

/-! ### `virt_viewer_util_extract_host` -/

def isAsciiAlpha (c : Char) : Bool :=
  ('a' ≤ c && c ≤ 'z') || ('A' ≤ c && c ≤ 'Z')

/-- Characters allowed after the first one in a URI scheme. -/
def isSchemeChar (c : Char) : Bool :=
  isAsciiAlpha c || c_isdigit c || c == '+' || c == '-' || c == '.'

/-- The `xmlURI` fields consumed by `virt_viewer_util_extract_host`.
A `none` field models a NULL pointer in the C struct. -/
structure XmlURI where
  scheme : Option (List Char)
  server : Option (List Char)
  user : Option (List Char)
  port : Int
  deriving DecidableEq, Repr

/-- Split off `scheme ":"` when the input starts with one (first character
alphabetic, then scheme characters, then a colon). -/
def takeScheme (s : List Char) : Option (List Char × List Char) :=
  match s with
  | [] => none
  | c :: _ =>
    if isAsciiAlpha c then
      match s.dropWhile isSchemeChar with
      | ':' :: t => some (s.takeWhile isSchemeChar, t)
      | _ => none
    else none

/-- End of the authority component: path, query or fragment start. -/
def isAuthEnd (c : Char) : Bool :=
  c == '/' || c == '?' || c == '#'

/-- Parse `host [":" port]` out of the authority remainder; an empty host
leaves the server field NULL; a bracketed IPv6 literal is stored with its
brackets, as libxml2 does. -/
def parseHostPort (hp : List Char) : Option (List Char) × Int :=
  if hp.isEmpty then (none, 0)
  else if hp.headD ' ' == '[' then
    let srv := hp.takeWhile (fun c => c != ']') ++ (hp.dropWhile (fun c => c != ']')).take 1
    match (hp.dropWhile (fun c => c != ']')).drop 1 with
    | ':' :: p => (some srv, (digitsVal (p.takeWhile c_isdigit) : Int))
    | _ => (some srv, 0)
  else
    let srv := hp.takeWhile (fun c => c != ':')
    let srvOpt := if srv.isEmpty then none else some srv
    match hp.dropWhile (fun c => c != ':') with
    | ':' :: p => (srvOpt, (digitsVal (p.takeWhile c_isdigit) : Int))
    | _ => (srvOpt, 0)

/-- Split `[userinfo "@"] hostport` and parse both parts. -/
def parseAuthority (auth : List Char) : Option (List Char) × Option (List Char) × Int :=
  let userHp : Option (List Char) × List Char :=
    if auth.contains '@' then
      (some (auth.takeWhile (fun c => c != '@')), (auth.dropWhile (fun c => c != '@')).drop 1)
    else (none, auth)
  let hp := parseHostPort userHp.2
  (userHp.1, hp.1, hp.2)

/-- Modelled at its boundary from libxml2's `xmlParseURI` (RFC 3986 generic
syntax), restricted to the fields `virt_viewer_util_extract_host` consumes:
optional scheme, and — when the remainder starts with `"//"` — an authority
holding optional userinfo, host and port.  Parse failure on ill-formed
input is not modelled; every claim below evaluates it on well-formed
URIs (including the empty relative reference, which libxml2 accepts). -/
def xmlParseURI (s : List Char) : XmlURI :=
  let schemeRest : Option (List Char) × List Char :=
    match takeScheme s with
    | some (sc, r) => (some sc, r)
    | none => (none, s)
  match schemeRest.2 with
  | '/' :: '/' :: r =>
    let auth := r.takeWhile (fun c => ¬ isAuthEnd c)
    let u := parseAuthority auth
    { scheme := schemeRest.1, server := u.2.1, user := u.1, port := u.2.2 }
  | _ => { scheme := schemeRest.1, server := none, user := none, port := 0 }

/-- ASCII lower-casing as in GLib's `g_ascii_tolower`. -/
def g_ascii_tolower (c : Char) : Char :=
  if 'A' ≤ c && c ≤ 'Z' then Char.ofNat (c.toNat + 32) else c

/-- `g_ascii_strcasecmp(a, b) == 0`: ASCII case-insensitive equality. -/
def g_ascii_caseeq (a b : List Char) : Bool :=
  a.map g_ascii_tolower == b.map g_ascii_tolower

/-- Final contents of the output parameters of
`virt_viewer_util_extract_host` (all five pointers supplied).  `scheme` is
the only output the function can leave unwritten (when the parsed URI has
no scheme); `none` there models "left untouched".  For `transport` and
`user` the C code always stores something, possibly NULL; `none` there
models a stored NULL. -/
structure ExtractHostResult where
  ret : Int
  scheme : Option (List Char)
  host : List Char
  transport : Option (List Char)
  user : Option (List Char)
  port : Int
  deriving DecidableEq, Repr

/-- `virt_viewer_util_extract_host` (lines 101-163 of
`virt-viewer-util.c`); the input `none` models a NULL `uristr`. -/
def virt_viewer_util_extract_host (uristr : Option (List Char)) : ExtractHostResult :=
  let u : List Char :=
    match uristr with
    | none => "xen:///".toList
    | some u0 => if g_ascii_caseeq u0 ("xen".toList) then "xen:///".toList else u0
  let uri := xmlParseURI u
  let host : List Char :=
    match uri.server with
    | none => "localhost".toList
    | some srv =>
      if srv.headD ' ' == '[' then (srv.drop 1).takeWhile (fun c => c != ']')
      else srv
  let offset : Option (List Char) :=
    match uri.scheme with
    | some sc => if sc.contains '+' then some (sc.dropWhile (fun c => c != '+')) else none
    | none => none
  let transport : Option (List Char) :=
    match offset with
    | some off => some (off.drop 1)
    | none => none
  let scheme : Option (List Char) :=
    match uri.scheme, offset with
    | some sc, some _ => some (sc.takeWhile (fun c => c != '+'))
    | some sc, none => some sc
    | none, _ => none
  { ret := 0, scheme := scheme, host := host, transport := transport,
    user := uri.user, port := uri.port }

/-! ### The lifetime-safe subscription registry
(`WeakHandlerCtx` and `virt_viewer_signal_connect_object`) -/

/-- The primitive teardown operations a `WeakHandlerCtx` performs, recorded
in the order they are executed. -/
inductive TeardownAct where
  | removeClosureNotifier
  | disconnectHandler
  | removeInstanceWeakRef
  | removeObserverWeakRef
  | freeCtx
  deriving DecidableEq, Repr

/-- State of one armed `WeakHandlerCtx` registration together with the
runtime facts the three callbacks manipulate: which of the three watches
are still installed, whether the signal handler is still connected (i.e.
the closure is still valid), whether the ctx memory is still allocated,
how many times `whc_free` has run on it, and the trace of primitive
teardown operations executed so far. -/
structure RegState where
  instWatch : Bool
  obsWatch : Bool
  closNotifier : Bool
  connected : Bool
  allocated : Bool
  freeCount : Nat
  trace : List TeardownAct
  deriving DecidableEq, Repr

/-- `g_object_weak_unref(ctx->instance, instance_destroyed_cb, ctx)`. -/
def weak_unref_instance (s : RegState) : RegState :=
  { s with instWatch := false, trace := s.trace ++ [.removeInstanceWeakRef] }

/-- `g_object_weak_unref(ctx->observer, observer_destroyed_cb, ctx)`. -/
def weak_unref_observer (s : RegState) : RegState :=
  { s with obsWatch := false, trace := s.trace ++ [.removeObserverWeakRef] }

/-- `g_closure_remove_invalidate_notifier(ctx->closure, ctx, closure_invalidated_cb)`. -/
def remove_invalidate_notifier (s : RegState) : RegState :=
  { s with closNotifier := false, trace := s.trace ++ [.removeClosureNotifier] }

/-- `whc_free(ctx)`: releases the ctx memory (and counts every release, so
a double free would be visible as `freeCount > 1`). -/
def whc_free (s : RegState) : RegState :=
  { s with allocated := false, freeCount := s.freeCount + 1, trace := s.trace ++ [.freeCtx] }

/-- `closure_invalidated_cb` (lines 225-234): remove the emitter weak ref,
remove the observer weak ref, free the ctx. -/
def closure_invalidated_cb (s : RegState) : RegState :=
  whc_free (weak_unref_observer (weak_unref_instance s))

/-- `g_signal_handler_disconnect(ctx->instance, ctx->handler_id)`, modelled
at its GObject boundary: it removes the handler and invalidates its
closure, which immediately runs an invalidate notifier that is still
installed (this is why `observer_destroyed_cb` must remove the notifier
before disconnecting). -/
def g_signal_handler_disconnect (s : RegState) : RegState :=
  let s1 : RegState := { s with connected := false, trace := s.trace ++ [.disconnectHandler] }
  if s1.closNotifier then closure_invalidated_cb { s1 with closNotifier := false } else s1

/-- `observer_destroyed_cb` (lines 211-222): remove the invalidate
notifier, disconnect the handler from the still-live emitter, remove the
emitter weak ref, free the ctx. -/
def observer_destroyed_cb (s : RegState) : RegState :=
  whc_free (weak_unref_instance (g_signal_handler_disconnect (remove_invalidate_notifier s)))

/-- `instance_destroyed_cb` (lines 197-208): no disconnect needed (the
emitter is gone); remove the observer weak ref, remove the invalidate
notifier, free the ctx. -/
def instance_destroyed_cb (s : RegState) : RegState :=
  whc_free (remove_invalidate_notifier (weak_unref_observer s))

/-- The three external destruction events that can reach a registration. -/
inductive TeardownEvent where
  | emitterDestroyed
  | observerDestroyed
  | closureInvalidated
  deriving DecidableEq, Repr

/-- Delivery of one event, modelled at the GObject boundary: a weak-ref or
invalidate notification runs its callback only if the corresponding watch
is still installed, and the watch is consumed by firing.  Destroying the
emitter also destroys its signal handlers, invalidating the closure; an
explicit closure invalidation (e.g. the caller disconnecting the handler
id) first marks the handler disconnected, then runs a still-installed
invalidate notifier. -/
def fireTeardown (e : TeardownEvent) (s : RegState) : RegState :=
  match e with
  | .emitterDestroyed =>
    let s1 := if s.instWatch then instance_destroyed_cb { s with instWatch := false } else s
    let s2 : RegState := { s1 with connected := false }
    if s2.closNotifier then closure_invalidated_cb { s2 with closNotifier := false } else s2
  | .observerDestroyed =>
    if s.obsWatch then observer_destroyed_cb { s with obsWatch := false } else s
  | .closureInvalidated =>
    let s1 : RegState := { s with connected := false }
    if s1.closNotifier then closure_invalidated_cb { s1 with closNotifier := false } else s1

/-- Deliver a sequence of teardown events. -/
def runTeardown (es : List TeardownEvent) (s : RegState) : RegState :=
  es.foldl (fun a e => fireTeardown e a) s

/-- The state of a registration right after a successful
`virt_viewer_signal_connect_object`: all three watches installed, handler
connected, ctx allocated, nothing torn down yet. -/
def armedState : RegState :=
  { instWatch := true, obsWatch := true, closNotifier := true,
    connected := true, allocated := true, freeCount := 0, trace := [] }

def G_CONNECT_AFTER : Nat := 1
def G_CONNECT_SWAPPED : Nat := 2

/-- The flag check of `virt_viewer_signal_connect_object` (line 263):
`(connect_flags & ~(G_CONNECT_AFTER|G_CONNECT_SWAPPED)) == 0`, with the
complement taken in the 32-bit `GConnectFlags` representation. -/
def connectFlagsValid (flags : Nat) : Bool :=
  flags &&& ((2 ^ 32 - 1) - (G_CONNECT_AFTER ||| G_CONNECT_SWAPPED)) == 0

/-- The validation-relevant facts about the arguments of
`virt_viewer_signal_connect_object`: whether each `g_return_val_if_fail`
condition holds, plus the raw `connect_flags` word. -/
structure ConnectArgs where
  instIsObject : Bool
  signalNonnull : Bool
  handlerNonnull : Bool
  observerIsObject : Bool
  connectFlags : Nat
  deriving DecidableEq, Repr

/-- What a call to `virt_viewer_signal_connect_object` leaves behind:
whether the `WeakHandlerCtx` allocated by `whc_new` is still allocated,
whether a closure was created, whether the signal binding was installed,
which of the three watches were installed, and the returned handler id
(`0` is the failure sentinel). -/
structure ConnectOutcome where
  ctxAllocated : Bool
  closureCreated : Bool
  signalConnected : Bool
  instanceWeakRef : Bool
  observerWeakRef : Bool
  closureNotifier : Bool
  result : Nat
  deriving DecidableEq, Repr

/-- `virt_viewer_signal_connect_object` (lines 250-279): `whc_new` runs
before any of the five `g_return_val_if_fail` checks; a failed check
returns the sentinel 0 immediately, leaving the fresh ctx allocated and
installing nothing; on success the closure is created, the signal is
connected (the signal machinery assigns the handler id `hid`), and the
three watches are installed. -/
def virt_viewer_signal_connect_object (a : ConnectArgs) (hid : Nat) : ConnectOutcome :=
  let failed : ConnectOutcome :=
    { ctxAllocated := true, closureCreated := false, signalConnected := false,
      instanceWeakRef := false, observerWeakRef := false, closureNotifier := false,
      result := 0 }
  if ¬ a.instIsObject then failed
  else if ¬ a.signalNonnull then failed
  else if ¬ a.handlerNonnull then failed
  else if ¬ a.observerIsObject then failed
  else if ¬ connectFlagsValid a.connectFlags then failed
  else
    { ctxAllocated := true, closureCreated := true, signalConnected := true,
      instanceWeakRef := true, observerWeakRef := true, closureNotifier := true,
      result := hid }

/-! ### Monitor layout (`displays_cmp`, `virt_viewer_align_monitors_linear`,
`virt_viewer_shift_monitors_to_origin`) -/

structure GdkRectangle where
  x : Int
  y : Int
  width : Int
  height : Int
  deriving DecidableEq, Repr

instance : Inhabited GdkRectangle := ⟨⟨0, 0, 0, 0⟩⟩

def G_MAXINT : Int := 2 ^ 31 - 1

/-- `displays_cmp` (lines 494-510): compare two monitor indices by x, then
y, then index.  The C routine stores the differences in a `guint` and
returns them through an `int`; for in-range coordinates that round-trips,
so the differences are modelled directly as integers. -/
def displays_cmp (displays : List GdkRectangle) (i j : Nat) : Int :=
  let m1 := displays.getD i default
  let m2 := displays.getD j default
  let d1 : Int := m1.x - m2.x
  let d2 : Int := if d1 = 0 then m1.y - m2.y else d1
  if d2 = 0 then (i : Int) - (j : Int) else d2

/-- The sorted index order `g_qsort_with_data` produces in
`virt_viewer_align_monitors_linear`: the comparator is a total order on
distinct indices (ties are broken by index), so the sort result is the
unique ordering consistent with it, here computed by insertion sort. -/
def sortedDisplayIndices (displays : List GdkRectangle) : List Nat :=
  List.insertionSort (fun i j => displays_cmp displays i j ≤ 0) (List.range displays.length)

/-- The loop body of `virt_viewer_align_monitors_linear` (lines 530-537):
assign the running `x` to the `nth` rectangle, zero its `y`, and advance
the running `x` by its width. -/
def alignStep (st : Int × List GdkRectangle) (nth : Nat) : Int × List GdkRectangle :=
  let rect := st.2.getD nth default
  (st.1 + rect.width, st.2.set nth { rect with x := st.1, y := 0 })

/-- `virt_viewer_align_monitors_linear` (lines 512-539): sort the indices,
then walk them left to right assigning `x` to the running total of widths
and `y` to 0. -/
def virt_viewer_align_monitors_linear (displays : List GdkRectangle) : List GdkRectangle :=
  if displays.length = 0 then displays
  else (List.foldl alignStep ((0 : Int), displays) (sortedDisplayIndices displays)).2

/-- The minima computation of `virt_viewer_shift_monitors_to_origin`
(lines 561-567): fold `MIN` over the rectangles with positive width and
height, starting from `G_MAXINT`. -/
def monitorsMins (displays : List GdkRectangle) : Int × Int :=
  displays.foldl
    (fun (m : Int × Int) d =>
      if d.width > 0 ∧ d.height > 0 then (min m.1 d.x, min m.2 d.y) else m)
    (G_MAXINT, G_MAXINT)

/-- `virt_viewer_shift_monitors_to_origin` (lines 552-580): on an empty
array, or when no non-degenerate rectangle kept the minima below
`G_MAXINT`, return unchanged; when some minimum is positive, translate
every non-degenerate rectangle by `(-xmin, -ymin)`; otherwise (both minima
`≤ 0`) leave the array unchanged. -/
def virt_viewer_shift_monitors_to_origin (displays : List GdkRectangle) : List GdkRectangle :=
  if displays.length = 0 then displays
  else
    let mins := monitorsMins displays
    if ¬ (mins.1 < G_MAXINT ∧ mins.2 < G_MAXINT) then displays
    else if mins.1 > 0 ∨ mins.2 > 0 then
      displays.map (fun d =>
        if d.width > 0 ∧ d.height > 0 then { d with x := d.x - mins.1, y := d.y - mins.2 } else d)
    else displays

/-- One-coordinate view of the minima fold of
`virt_viewer_shift_monitors_to_origin`: fold `min` of `sel` over the
non-degenerate rectangles, starting from `a`. -/
def minFold (sel : GdkRectangle → Int) (a : Int) (ds : List GdkRectangle) : Int :=
  ds.foldl (fun m d => if d.width > 0 ∧ d.height > 0 then min m (sel d) else m) a

/-- Spec-side strict ordering used by the claim about
`virt_viewer_align_monitors_linear`: by x, then y, then original index. -/
def displayKeyLt (displays : List GdkRectangle) (i j : Nat) : Prop :=
  (displays.getD i default).x < (displays.getD j default).x ∨
  ((displays.getD i default).x = (displays.getD j default).x ∧
    ((displays.getD i default).y < (displays.getD j default).y ∨
      ((displays.getD i default).y = (displays.getD j default).y ∧ i < j)))

/-! ## Theorems -/

/-! ### Version comparator lemmas -/

theorem g_ascii_strtoull_value_lt (s : List Char) : (g_ascii_strtoull s).value < 2 ^ 64 := by
  unfold g_ascii_strtoull G_MAXUINT64
  dsimp only
  split
  · norm_num
  · dsimp only [StrtoullResult.value]
    split
    · norm_num
    · split
      · exact Nat.mod_lt _ (by norm_num)
      · omega

theorem versionRetval_self (m : Nat) (h : m < 2 ^ 64) : versionRetval m m = 0 := by
  unfold versionRetval
  have h0 : (m + (2 ^ 64 - m)) % 2 ^ 64 = 0 := by omega
  rw [h0]
  decide

theorem compareLoop_refl (l : List (List Char)) : (compareLoop l l).1 = 0 := by
  induction l with
  | nil => rfl
  | cons c r ih =>
    simp only [compareLoop, versionRetval_self _ (g_ascii_strtoull_value_lt c), ne_eq,
      not_true_eq_false]
    split
    · simp_all
    · split
      · rfl
      · exact ih

theorem compareLoop_zero_warn_iff (l1 l2 : List (List Char)) :
    compareLoop l1 l2 = (0, true) ↔ suffixStops l1 l2 = true := by
  induction l1 generalizing l2 with
  | nil =>
    cases l2 <;> simp [compareLoop, suffixStops]
  | cons c r ih =>
    cases l2 with
    | nil => simp [compareLoop, suffixStops]
    | cons c2 r2 =>
      simp only [compareLoop, suffixStops]
      split
      · simp_all
      · split
        · simp
        · exact ih r2

/-- C10: for every string s, `virt_viewer_compare_version(s, s)` returns 0,
including strings whose components carry non-numeric suffixes (reflexivity
of the comparator). -/
theorem compare_version_refl (s : List Char) : (virt_viewer_compare_version s s).1 = 0 :=
  compareLoop_refl (g_strsplit_dot s)

/-- C6: `virt_viewer_compare_version` compares dot-separated components
numerically, not lexically, and treats a longer component list as greater
when the shared prefix is equal: compare("1.1","1.0") > 0,
compare("1.0.1","1.0") > 0, compare("1.10","1.7") > 0,
compare("1.0","1.0") = 0, and compare("1.0rc1","1.0") = 0. -/
theorem compare_version_numeric_examples :
    (virt_viewer_compare_version "1.1".toList "1.0".toList).1 > 0 ∧
    (virt_viewer_compare_version "1.0.1".toList "1.0".toList).1 > 0 ∧
    (virt_viewer_compare_version "1.10".toList "1.7".toList).1 > 0 ∧
    (virt_viewer_compare_version "1.0".toList "1.0".toList).1 = 0 ∧
    (virt_viewer_compare_version "1.0rc1".toList "1.0".toList).1 = 0 := by
  decide

/-- C5 counterexample: "2rc" has a single component whose parse leaves the
non-numeric suffix "rc", yet `virt_viewer_compare_version("2rc", "1")`
returns 1 — not 0 — and emits no warning, because the numeric values 2 and
1 already differ and the suffix check is never reached. -/
theorem compare_version_suffix_claim_counterexample :
    ("2rc".toList ∈ g_strsplit_dot "2rc".toList) ∧
    (¬ (g_ascii_strtoull "2rc".toList).endp.isEmpty) ∧
    virt_viewer_compare_version "2rc".toList "1".toList = (1, false) := by
  decide

/-- C5 amended: `virt_viewer_compare_version` returns 0 with a warning
exactly when, scanning the dot-separated components of the two arguments
in parallel, a component with a non-numeric suffix is reached at a
position whose numeric values are equal, before any position whose numeric
values differ; when a numeric difference comes first, that difference is
returned and no warning is emitted. -/
theorem compare_version_suffix_warning_iff (s1 s2 : List Char) :
    virt_viewer_compare_version s1 s2 = (0, true) ↔
      suffixStops (g_strsplit_dot s1) (g_strsplit_dot s2) = true :=
  compareLoop_zero_warn_iff (g_strsplit_dot s1) (g_strsplit_dot s2)

/-! ### Connection-string decomposer -/

/-- C7 counterexample: on the empty-string input the default URI is NOT
substituted (only NULL and "xen" match the substitution test), the empty
relative URI has no scheme, and the scheme output parameter is left
unwritten instead of receiving "xen". -/
theorem extract_host_empty_counterexample :
    (virt_viewer_util_extract_host (some "".toList)).scheme = none ∧
    ¬ (virt_viewer_util_extract_host (some "".toList)).scheme = some ("xen".toList) := by
  decide

/-- C7 amended: for a NULL uristr and for the input "xen" the default URI
"xen:///" is substituted, yielding scheme "xen" and host "localhost"; the
empty-string input is not substituted: it parses as the empty relative
URI, so the host output still defaults to "localhost" but the scheme
output is left unwritten. -/
theorem extract_host_default_amended :
    (virt_viewer_util_extract_host none).scheme = some ("xen".toList) ∧
    (virt_viewer_util_extract_host none).host = "localhost".toList ∧
    (virt_viewer_util_extract_host (some "xen".toList)).scheme = some ("xen".toList) ∧
    (virt_viewer_util_extract_host (some "xen".toList)).host = "localhost".toList ∧
    (virt_viewer_util_extract_host (some "".toList)).host = "localhost".toList ∧
    (virt_viewer_util_extract_host (some "".toList)).scheme = none := by
  decide

/-! ### Subscription registry -/

theorem fireTeardown_released (e : TeardownEvent) (s : RegState)
    (h1 : s.instWatch = false) (h2 : s.obsWatch = false)
    (h3 : s.closNotifier = false) (h4 : s.connected = false) :
    fireTeardown e s = s := by
  cases s
  cases e <;> simp_all [fireTeardown]

theorem runTeardown_released (es : List TeardownEvent) (s : RegState)
    (h1 : s.instWatch = false) (h2 : s.obsWatch = false)
    (h3 : s.closNotifier = false) (h4 : s.connected = false) :
    runTeardown es s = s := by
  induction es with
  | nil => rfl
  | cons e es ih =>
    show runTeardown es (fireTeardown e s) = s
    rw [fireTeardown_released e s h1 h2 h3 h4]
    exact ih

/-- C1: for an armed registration, whichever of the three teardown events
is delivered first removes the watches belonging to the other two paths
and frees the registration exactly once (`freeCount = 1`), and any further
sequence of teardown events leaves the state completely unchanged — the
other two paths can never run afterwards. -/
theorem teardown_release_exactly_once (e : TeardownEvent) (es : List TeardownEvent) :
    runTeardown (e :: es) armedState = fireTeardown e armedState ∧
    (fireTeardown e armedState).freeCount = 1 ∧
    (fireTeardown e armedState).allocated = false ∧
    (fireTeardown e armedState).instWatch = false ∧
    (fireTeardown e armedState).obsWatch = false ∧
    (fireTeardown e armedState).closNotifier = false := by
  have hstep : runTeardown (e :: es) armedState = runTeardown es (fireTeardown e armedState) := rfl
  cases e
  · exact ⟨hstep.trans (runTeardown_released es _ rfl rfl rfl rfl), rfl, rfl, rfl, rfl, rfl⟩
  · exact ⟨hstep.trans (runTeardown_released es _ rfl rfl rfl rfl), rfl, rfl, rfl, rfl, rfl⟩
  · exact ⟨hstep.trans (runTeardown_released es _ rfl rfl rfl rfl), rfl, rfl, rfl, rfl, rfl⟩

/-- C3: when the observer-destroyed watch fires first on an armed
registration, the teardown performs exactly these steps in this order:
remove the closure-invalidated notifier, disconnect the signal handler
from the still-live emitter, remove the emitter-destroyed weak watch, then
free the registration — and nothing else. -/
theorem observer_destroyed_teardown_order :
    fireTeardown .observerDestroyed armedState =
      { instWatch := false, obsWatch := false, closNotifier := false, connected := false,
        allocated := false, freeCount := 1,
        trace := [.removeClosureNotifier, .disconnectHandler,
                  .removeInstanceWeakRef, .freeCtx] } := by
  decide

/-- C4: when every other argument is valid but `connect_flags` carries a
bit outside G_CONNECT_AFTER|G_CONNECT_SWAPPED (the contract check of line
263 fails), `virt_viewer_signal_connect_object` returns the sentinel 0 and
installs neither a closure nor a signal binding nor any watch. -/
theorem connect_object_bad_flags_fails_fast (a : ConnectArgs) (hid : Nat)
    (h1 : a.instIsObject = true) (h2 : a.signalNonnull = true)
    (h3 : a.handlerNonnull = true) (h4 : a.observerIsObject = true)
    (h5 : connectFlagsValid a.connectFlags = false) :
    (virt_viewer_signal_connect_object a hid).result = 0 ∧
    (virt_viewer_signal_connect_object a hid).signalConnected = false ∧
    (virt_viewer_signal_connect_object a hid).closureCreated = false ∧
    (virt_viewer_signal_connect_object a hid).instanceWeakRef = false ∧
    (virt_viewer_signal_connect_object a hid).observerWeakRef = false ∧
    (virt_viewer_signal_connect_object a hid).closureNotifier = false := by
  simp [virt_viewer_signal_connect_object, h1, h2, h3, h4, h5]

theorem connect_object_bad_flags_witness :
    connectFlagsValid 4 = false ∧
    ((virt_viewer_signal_connect_object ⟨true, true, true, true, 4⟩ 7).result = 0 ∧
     (virt_viewer_signal_connect_object ⟨true, true, true, true, 4⟩ 7).signalConnected = false ∧
     (virt_viewer_signal_connect_object ⟨true, true, true, true, 4⟩ 7).closureCreated = false ∧
     (virt_viewer_signal_connect_object ⟨true, true, true, true, 4⟩ 7).instanceWeakRef = false ∧
     (virt_viewer_signal_connect_object ⟨true, true, true, true, 4⟩ 7).observerWeakRef = false ∧
     (virt_viewer_signal_connect_object ⟨true, true, true, true, 4⟩ 7).closureNotifier = false) :=
  ⟨by decide,
   connect_object_bad_flags_fails_fast ⟨true, true, true, true, 4⟩ 7 rfl rfl rfl rfl (by decide)⟩

/-- C2 counterexample: with a non-object observer (the fourth validation
check fails) the call returns 0 and installs no watch and no binding, but
the `WeakHandlerCtx` allocated by `whc_new` before the checks remains
allocated — a context record IS left behind, contradicting the claim. -/
theorem connect_object_validation_leak_counterexample :
    (virt_viewer_signal_connect_object ⟨true, true, true, false, 0⟩ 7).result = 0 ∧
    (virt_viewer_signal_connect_object ⟨true, true, true, false, 0⟩ 7).signalConnected = false ∧
    (virt_viewer_signal_connect_object ⟨true, true, true, false, 0⟩ 7).instanceWeakRef = false ∧
    (virt_viewer_signal_connect_object ⟨true, true, true, false, 0⟩ 7).observerWeakRef = false ∧
    (virt_viewer_signal_connect_object ⟨true, true, true, false, 0⟩ 7).closureNotifier = false ∧
    (virt_viewer_signal_connect_object ⟨true, true, true, false, 0⟩ 7).ctxAllocated = true := by
  decide

/-- C2 amended: when any validation step of
`virt_viewer_signal_connect_object` fails, no watch is installed, no
closure is created and no signal binding exists, and the sentinel 0 is
returned — but the context record allocated by `whc_new` on entry remains
allocated (it is leaked), because `whc_new` runs before the checks. -/
theorem connect_object_validation_no_partial (a : ConnectArgs) (hid : Nat)
    (h : a.instIsObject = false ∨ a.signalNonnull = false ∨ a.handlerNonnull = false ∨
         a.observerIsObject = false ∨ connectFlagsValid a.connectFlags = false) :
    virt_viewer_signal_connect_object a hid =
      { ctxAllocated := true, closureCreated := false, signalConnected := false,
        instanceWeakRef := false, observerWeakRef := false, closureNotifier := false,
        result := 0 } := by
  unfold virt_viewer_signal_connect_object
  rcases h with h | h | h | h | h <;> simp [h]

theorem connect_object_validation_no_partial_witness :
    ((true : Bool) = false ∨ (true : Bool) = false ∨ (true : Bool) = false ∨
      (false : Bool) = false ∨ connectFlagsValid 0 = false) ∧
    virt_viewer_signal_connect_object ⟨true, true, true, false, 0⟩ 7 =
      { ctxAllocated := true, closureCreated := false, signalConnected := false,
        instanceWeakRef := false, observerWeakRef := false, closureNotifier := false,
        result := 0 } :=
  ⟨Or.inr (Or.inr (Or.inr (Or.inl rfl))),
   connect_object_validation_no_partial ⟨true, true, true, false, 0⟩ 7
     (Or.inr (Or.inr (Or.inr (Or.inl rfl))))⟩

/-! ### Monitor normalization (`virt_viewer_shift_monitors_to_origin`) -/

theorem monitorsMins_eq_minFold (ds : List GdkRectangle) :
    ∀ a b : Int,
      ds.foldl (fun (m : Int × Int) d =>
        if d.width > 0 ∧ d.height > 0 then (min m.1 d.x, min m.2 d.y) else m) (a, b) =
      (minFold (fun r => r.x) a ds, minFold (fun r => r.y) b ds) := by
  induction ds with
  | nil => intro a b; rfl
  | cons d rest ih =>
    intro a b
    simp only [List.foldl_cons, minFold, List.foldl_cons] at *
    by_cases h : d.width > 0 ∧ d.height > 0
    · simp only [if_pos h]
      exact ih (min a d.x) (min b d.y)
    · simp only [if_neg h]
      exact ih a b

theorem minFold_le_init (sel : GdkRectangle → Int) (ds : List GdkRectangle) :
    ∀ a : Int, minFold sel a ds ≤ a := by
  induction ds with
  | nil => intro a; exact le_refl a
  | cons d rest ih =>
    intro a
    simp only [minFold, List.foldl_cons]
    by_cases h : d.width > 0 ∧ d.height > 0
    · simp only [if_pos h]
      exact le_trans (ih (min a (sel d))) (min_le_left _ _)
    · simp only [if_neg h]
      exact ih a

theorem minFold_le_mem (sel : GdkRectangle → Int) (ds : List GdkRectangle)
    (d : GdkRectangle) (hmem : d ∈ ds) (hnd : d.width > 0 ∧ d.height > 0) :
    ∀ a : Int, minFold sel a ds ≤ sel d := by
  induction ds with
  | nil => cases hmem
  | cons e rest ih =>
    intro a
    simp only [minFold, List.foldl_cons]
    rcases List.mem_cons.mp hmem with heq | hmem'
    · subst heq
      simp only [if_pos hnd]
      exact le_trans (minFold_le_init sel rest _) (min_le_right _ _)
    · by_cases h : e.width > 0 ∧ e.height > 0
      · simp only [if_pos h]; exact ih hmem' _
      · simp only [if_neg h]; exact ih hmem' _

theorem minFold_attained (sel : GdkRectangle → Int) (ds : List GdkRectangle) :
    ∀ a : Int, minFold sel a ds = a ∨
      ∃ d ∈ ds, (d.width > 0 ∧ d.height > 0) ∧ minFold sel a ds = sel d := by
  induction ds with
  | nil => intro a; exact Or.inl rfl
  | cons e rest ih =>
    intro a
    simp only [minFold, List.foldl_cons]
    by_cases h : e.width > 0 ∧ e.height > 0
    · simp only [if_pos h]
      rcases ih (min a (sel e)) with heq | ⟨d, hd, hnd, heq⟩
      · rcases min_cases a (sel e) with ⟨hm, _⟩ | ⟨hm, _⟩
        · exact Or.inl (heq.trans hm)
        · exact Or.inr ⟨e, List.mem_cons_self e rest, h, heq.trans hm⟩
      · exact Or.inr ⟨d, List.mem_cons_of_mem e hd, hnd, heq⟩
    · simp only [if_neg h]
      rcases ih a with heq | ⟨d, hd, hnd, heq⟩
      · exact Or.inl heq
      · exact Or.inr ⟨d, List.mem_cons_of_mem e hd, hnd, heq⟩

theorem minFold_nonneg (sel : GdkRectangle → Int) (ds : List GdkRectangle)
    (hall : ∀ d ∈ ds, d.width > 0 ∧ d.height > 0 → 0 ≤ sel d) :
    ∀ a : Int, 0 ≤ a → 0 ≤ minFold sel a ds := by
  induction ds with
  | nil => intro a ha; exact ha
  | cons e rest ih =>
    intro a ha
    simp only [minFold, List.foldl_cons]
    have hall' : ∀ d ∈ rest, d.width > 0 ∧ d.height > 0 → 0 ≤ sel d :=
      fun d hd => hall d (List.mem_cons_of_mem e hd)
    by_cases h : e.width > 0 ∧ e.height > 0
    · simp only [if_pos h]
      exact ih hall' _ (le_min ha (hall e (List.mem_cons_self e rest) h))
    · simp only [if_neg h]
      exact ih hall' a ha

/-- C8 counterexample: for the non-empty array holding the single
non-degenerate rectangle at (-5, -3), the function leaves the array
unchanged (it only shifts when some minimum is positive), so the minimum
(x, y) among non-degenerate rectangles stays (-5, -3), not the origin. -/
theorem shift_monitors_negative_min_counterexample :
    virt_viewer_shift_monitors_to_origin [⟨-5, -3, 10, 10⟩] = [⟨-5, -3, 10, 10⟩] ∧
    monitorsMins [⟨-5, -3, 10, 10⟩] = (-5, -3) ∧
    ¬ monitorsMins (virt_viewer_shift_monitors_to_origin [⟨-5, -3, 10, 10⟩]) = (0, 0) := by
  decide

/-- C8 amended: for every non-empty array of rectangles whose minima over
the non-degenerate rectangles stayed below G_MAXINT and at least one of
which is positive, `virt_viewer_shift_monitors_to_origin` translates the
non-degenerate rectangles by (-xmin, -ymin), making their minimum (x, y)
the origin; when both minima are ≤ 0 (and in particular negative) the
array is left unchanged. -/
theorem shift_monitors_origin_amended (ds : List GdkRectangle)
    (hne : ds ≠ [])
    (hx : (monitorsMins ds).1 < G_MAXINT)
    (hy : (monitorsMins ds).2 < G_MAXINT)
    (hpos : 0 < (monitorsMins ds).1 ∨ 0 < (monitorsMins ds).2) :
    monitorsMins (virt_viewer_shift_monitors_to_origin ds) = (0, 0) := by
  have hmm : ∀ l : List GdkRectangle,
      monitorsMins l = (minFold (fun r => r.x) G_MAXINT l, minFold (fun r => r.y) G_MAXINT l) :=
    fun l => monitorsMins_eq_minFold l G_MAXINT G_MAXINT
  have hlen : ¬ ds.length = 0 := by simpa [List.length_eq_zero] using hne
  have hout : virt_viewer_shift_monitors_to_origin ds =
      ds.map (fun d => if d.width > 0 ∧ d.height > 0
        then { d with x := d.x - (monitorsMins ds).1, y := d.y - (monitorsMins ds).2 } else d) := by
    unfold virt_viewer_shift_monitors_to_origin
    rw [if_neg hlen]
    dsimp only
    rw [if_neg (not_not_intro ⟨hx, hy⟩), if_pos (by exact hpos)]
  set xmin := (monitorsMins ds).1 with hxm
  set ymin := (monitorsMins ds).2 with hym
  have hxf : minFold (fun r => r.x) G_MAXINT ds = xmin := by rw [hxm, hmm ds]
  have hyf : minFold (fun r => r.y) G_MAXINT ds = ymin := by rw [hym, hmm ds]
  set f := fun d : GdkRectangle => if d.width > 0 ∧ d.height > 0
      then { d with x := d.x - xmin, y := d.y - ymin } else d with hf
  have hMAXnn : (0 : Int) ≤ G_MAXINT := by norm_num [G_MAXINT]
  have hxlow : ∀ d' ∈ ds.map f, d'.width > 0 ∧ d'.height > 0 → 0 ≤ d'.x := by
    intro d' hd' hnd'
    rcases List.mem_map.mp hd' with ⟨d0, hd0, heq⟩
    by_cases h0 : d0.width > 0 ∧ d0.height > 0
    · have : d' = { d0 with x := d0.x - xmin, y := d0.y - ymin } := by
        rw [← heq, hf]; simp [h0]
      subst this
      have := minFold_le_mem (fun r => r.x) ds d0 hd0 h0 G_MAXINT
      rw [hxf] at this
      simpa using this
    · have : d' = d0 := by rw [← heq, hf]; simp [h0]
      subst this
      exact absurd hnd' h0
  have hylow : ∀ d' ∈ ds.map f, d'.width > 0 ∧ d'.height > 0 → 0 ≤ d'.y := by
    intro d' hd' hnd'
    rcases List.mem_map.mp hd' with ⟨d0, hd0, heq⟩
    by_cases h0 : d0.width > 0 ∧ d0.height > 0
    · have : d' = { d0 with x := d0.x - xmin, y := d0.y - ymin } := by
        rw [← heq, hf]; simp [h0]
      subst this
      have := minFold_le_mem (fun r => r.y) ds d0 hd0 h0 G_MAXINT
      rw [hyf] at this
      simpa using this
    · have : d' = d0 := by rw [← heq, hf]; simp [h0]
      subst this
      exact absurd hnd' h0
  have hxup : minFold (fun r => r.x) G_MAXINT (ds.map f) ≤ 0 := by
    rcases minFold_attained (fun r => r.x) ds G_MAXINT with heq | ⟨d0, hd0, hnd0, heq⟩
    · rw [hxf] at heq; exact absurd heq (by rw [hxm] at hx ⊢; omega)
    · rw [hxf] at heq
      have hmem : f d0 ∈ ds.map f := List.mem_map_of_mem f hd0
      have hfd0 : f d0 = { d0 with x := d0.x - xmin, y := d0.y - ymin } := by
        rw [hf]; simp [hnd0]
      rw [hfd0] at hmem
      have := minFold_le_mem (fun r => r.x) (ds.map f)
        { d0 with x := d0.x - xmin, y := d0.y - ymin } hmem (by simpa using hnd0) G_MAXINT
      simpa [← heq] using this
  have hyup : minFold (fun r => r.y) G_MAXINT (ds.map f) ≤ 0 := by
    rcases minFold_attained (fun r => r.y) ds G_MAXINT with heq | ⟨d0, hd0, hnd0, heq⟩
    · rw [hyf] at heq; exact absurd heq (by rw [hym] at hy ⊢; omega)
    · rw [hyf] at heq
      have hmem : f d0 ∈ ds.map f := List.mem_map_of_mem f hd0
      have hfd0 : f d0 = { d0 with x := d0.x - xmin, y := d0.y - ymin } := by
        rw [hf]; simp [hnd0]
      rw [hfd0] at hmem
      have := minFold_le_mem (fun r => r.y) (ds.map f)
        { d0 with x := d0.x - xmin, y := d0.y - ymin } hmem (by simpa using hnd0) G_MAXINT
      simpa [← heq] using this
  have hx0 : minFold (fun r => r.x) G_MAXINT (ds.map f) = 0 :=
    le_antisymm hxup (minFold_nonneg _ _ hxlow _ hMAXnn)
  have hy0 : minFold (fun r => r.y) G_MAXINT (ds.map f) = 0 :=
    le_antisymm hyup (minFold_nonneg _ _ hylow _ hMAXnn)
  rw [hout, hmm (ds.map f)]
  rw [hf] at hx0 hy0 ⊢
  exact Prod.ext hx0 hy0

theorem shift_monitors_origin_witness :
    (([⟨100, 50, 10, 10⟩] : List GdkRectangle) ≠ []) ∧
    (monitorsMins [⟨100, 50, 10, 10⟩]).1 < G_MAXINT ∧
    (monitorsMins [⟨100, 50, 10, 10⟩]).2 < G_MAXINT ∧
    (0 < (monitorsMins [⟨100, 50, 10, 10⟩]).1 ∨ 0 < (monitorsMins [⟨100, 50, 10, 10⟩]).2) ∧
    monitorsMins (virt_viewer_shift_monitors_to_origin [⟨100, 50, 10, 10⟩]) = (0, 0) :=
  ⟨by decide, by decide, by decide, Or.inl (by decide),
   shift_monitors_origin_amended [⟨100, 50, 10, 10⟩] (by decide) (by decide) (by decide)
     (Or.inl (by decide))⟩

/-! ### Monitor linear alignment (`virt_viewer_align_monitors_linear`) -/

theorem displays_cmp_total (ds : List GdkRectangle) (i j : Nat) :
    displays_cmp ds i j ≤ 0 ∨ displays_cmp ds j i ≤ 0 := by
  unfold displays_cmp
  dsimp only
  split_ifs <;> omega

theorem displays_cmp_trans (ds : List GdkRectangle) (i j k : Nat)
    (h1 : displays_cmp ds i j ≤ 0) (h2 : displays_cmp ds j k ≤ 0) :
    displays_cmp ds i k ≤ 0 := by
  unfold displays_cmp at h1 h2 ⊢
  dsimp only at h1 h2 ⊢
  split_ifs at h1 h2 ⊢ <;> omega

theorem displays_cmp_le_of_ne (ds : List GdkRectangle) (i j : Nat)
    (h : displays_cmp ds i j ≤ 0) (hne : i ≠ j) : displayKeyLt ds i j := by
  unfold displays_cmp at h
  dsimp only at h
  unfold displayKeyLt
  split_ifs at h with h1 h2
  · right
    refine ⟨by omega, Or.inr ⟨by omega, by omega⟩⟩
  · right
    refine ⟨by omega, Or.inl (by omega)⟩
  · left
    omega

theorem getD_set_self_of_lt {α : Type} (l : List α) (j : Nat) (a d : α) (h : j < l.length) :
    (l.set j a).getD j d = a := by
  induction l generalizing j with
  | nil => simp at h
  | cons x t ih =>
    cases j with
    | zero => rfl
    | succ j' => exact ih j' (by simpa using h)

theorem getD_set_ne' {α : Type} (l : List α) (i j : Nat) (a d : α) (h : i ≠ j) :
    (l.set i a).getD j d = l.getD j d := by
  induction l generalizing i j with
  | nil => rfl
  | cons x t ih =>
    cases i with
    | zero =>
      cases j with
      | zero => exact absurd rfl h
      | succ j' => rfl
    | succ i' =>
      cases j with
      | zero => rfl
      | succ j' => exact ih i' j' (by omega)

theorem getD_mem' {α : Type} (l : List α) (k : Nat) (d : α) (h : k < l.length) :
    l.getD k d ∈ l := by
  induction l generalizing k with
  | nil => simp at h
  | cons x t ih =>
    cases k with
    | zero => exact List.mem_cons_self x t
    | succ k' => exact List.mem_cons_of_mem x (ih k' (by simpa using h))

theorem align_fold_spec (σ : List Nat) :
    ∀ (x0 : Int) (cur : List GdkRectangle),
      σ.Nodup → (∀ i ∈ σ, i < cur.length) →
      (∀ k, k < σ.length →
          (σ.foldl alignStep (x0, cur)).2.getD (σ.getD k 0) default =
            { cur.getD (σ.getD k 0) default with
                x := x0 + ((σ.take k).map (fun i => (cur.getD i default).width)).sum,
                y := 0 }) ∧
      (∀ i, i ∉ σ → (σ.foldl alignStep (x0, cur)).2.getD i default = cur.getD i default) ∧
      (σ.foldl alignStep (x0, cur)).2.length = cur.length := by
  induction σ with
  | nil =>
    intro x0 cur _ _
    refine ⟨fun k hk => absurd hk (by simp), fun i _ => rfl, rfl⟩
  | cons j rest ih =>
    intro x0 cur hnd hlt
    have hjrest : j ∉ rest := (List.nodup_cons.mp hnd).1
    have hndr : rest.Nodup := (List.nodup_cons.mp hnd).2
    have hjlt : j < cur.length := hlt j (List.mem_cons_self j rest)
    set rectj := cur.getD j default with hrectj
    set cur' := cur.set j { rectj with x := x0, y := 0 } with hcur'
    have hstep : (j :: rest).foldl alignStep (x0, cur) =
        rest.foldl alignStep (x0 + rectj.width, cur') := rfl
    have hlen' : cur'.length = cur.length := by rw [hcur']; exact List.length_set cur j _
    have hltr : ∀ i ∈ rest, i < cur'.length := by
      intro i hi; rw [hlen']; exact hlt i (List.mem_cons_of_mem j hi)
    obtain ⟨ihpos, ihout, ihlen⟩ := ih (x0 + rectj.width) cur' hndr hltr
    have hcur'_eq : ∀ i, i ≠ j → cur'.getD i default = cur.getD i default := by
      intro i hi; rw [hcur']; exact getD_set_ne' cur j i _ _ (fun h => hi h.symm)
    have hwidth : ∀ i, (cur'.getD i default).width = (cur.getD i default).width := by
      intro i
      by_cases hij : i = j
      · subst hij
        rw [hcur', getD_set_self_of_lt cur i _ _ hjlt, hrectj]
      · rw [hcur'_eq i hij]
    refine ⟨?_, ?_, ihlen.trans hlen'⟩
    · intro k hk
      cases k with
      | zero =>
        have hgd : (j :: rest).getD 0 0 = j := rfl
        rw [hgd, hstep, ihout j hjrest, hcur', getD_set_self_of_lt cur j _ _ hjlt]
        simp [hrectj]
      | succ k' =>
        have hk' : k' < rest.length := by simpa using hk
        have hgd : (j :: rest).getD (k' + 1) 0 = rest.getD k' 0 := rfl
        have hmem : rest.getD k' 0 ∈ rest := getD_mem' rest k' 0 hk'
        have hne : rest.getD k' 0 ≠ j := fun h => hjrest (h ▸ hmem)
        have hwidths : (rest.take k').map (fun i => (cur'.getD i default).width) =
            (rest.take k').map (fun i => (cur.getD i default).width) :=
          List.map_congr_left (fun i _ => hwidth i)
        have htake : ((j :: rest).take (k' + 1)).map (fun i => (cur.getD i default).width) =
            rectj.width :: (rest.take k').map (fun i => (cur.getD i default).width) := by
          simp [hrectj]
        rw [hgd, hstep, ihpos k' hk', hcur'_eq _ hne, hwidths, htake]
        simp only [List.sum_cons]
        congr 1
        omega
    · intro i hi
      have hine : i ≠ j := fun h => hi (h ▸ List.mem_cons_self j rest)
      have hirest : i ∉ rest := fun h => hi (List.mem_cons_of_mem j h)
      rw [hstep, ihout i hirest, hcur'_eq i hine]

/-- C9: for every non-empty array of rectangles,
`virt_viewer_align_monitors_linear` admits an ordering of the indices —
a permutation of them, strictly increasing by (x, then y, then original
index) — in which the first rectangle is placed at x = 0, every rectangle
is placed where the widths of its predecessors end (no gaps or overlap),
every y becomes 0, and widths and heights are unchanged; and on the
example {(x:100,y:0,w:50,h:50), (x:0,y:0,w:80,h:50)} the rectangle
originally at x = 0 keeps x = 0 with width 80 and the other is placed at
x = 80. -/
theorem align_monitors_linear_spec :
    (∀ ds : List GdkRectangle, ds ≠ [] →
      ∃ σ : List Nat,
        σ.Perm (List.range ds.length) ∧
        List.Chain' (displayKeyLt ds) σ ∧
        (∀ k, k < σ.length →
          ((virt_viewer_align_monitors_linear ds).getD (σ.getD k 0) default).x =
            ((σ.take k).map (fun i => (ds.getD i default).width)).sum ∧
          ((virt_viewer_align_monitors_linear ds).getD (σ.getD k 0) default).y = 0 ∧
          ((virt_viewer_align_monitors_linear ds).getD (σ.getD k 0) default).width =
            (ds.getD (σ.getD k 0) default).width ∧
          ((virt_viewer_align_monitors_linear ds).getD (σ.getD k 0) default).height =
            (ds.getD (σ.getD k 0) default).height)) ∧
    virt_viewer_align_monitors_linear [⟨100, 0, 50, 50⟩, ⟨0, 0, 80, 50⟩] =
      [⟨80, 0, 50, 50⟩, ⟨0, 0, 80, 50⟩] := by
  constructor
  · intro ds hne
    haveI : IsTotal Nat (fun i j => displays_cmp ds i j ≤ 0) := ⟨displays_cmp_total ds⟩
    haveI : IsTrans Nat (fun i j => displays_cmp ds i j ≤ 0) := ⟨displays_cmp_trans ds⟩
    set σ := sortedDisplayIndices ds with hσ
    have hperm : σ.Perm (List.range ds.length) := List.perm_insertionSort _ _
    have hnd : σ.Nodup := hperm.symm.nodup (List.nodup_range ds.length)
    have hlt : ∀ i ∈ σ, i < ds.length := fun i hi => List.mem_range.mp (hperm.subset hi)
    have hsorted : List.Sorted (fun i j => displays_cmp ds i j ≤ 0) σ := by
      rw [hσ]
      exact List.sorted_insertionSort _ _
    have hchain : List.Chain' (displayKeyLt ds) σ :=
      List.Pairwise.chain'
        ((hsorted.and hnd).imp (fun h => displays_cmp_le_of_ne ds _ _ h.1 h.2))
    have hlen0 : ¬ ds.length = 0 := by simpa [List.length_eq_zero] using hne
    have halign : virt_viewer_align_monitors_linear ds = (σ.foldl alignStep (0, ds)).2 := by
      unfold virt_viewer_align_monitors_linear
      rw [if_neg hlen0, ← hσ]
    obtain ⟨hpos, -, -⟩ := align_fold_spec σ 0 ds hnd hlt
    refine ⟨σ, hperm, hchain, ?_⟩
    intro k hk
    rw [halign, hpos k hk]
    exact ⟨by simp, rfl, rfl, rfl⟩
  · decide

theorem align_monitors_linear_witness :
    (([⟨100, 0, 50, 50⟩, ⟨0, 0, 80, 50⟩] : List GdkRectangle) ≠ []) ∧
    (∃ σ : List Nat,
      σ.Perm (List.range ([⟨100, 0, 50, 50⟩, ⟨0, 0, 80, 50⟩] : List GdkRectangle).length) ∧
      List.Chain' (displayKeyLt [⟨100, 0, 50, 50⟩, ⟨0, 0, 80, 50⟩]) σ ∧
      (∀ k, k < σ.length →
        ((virt_viewer_align_monitors_linear [⟨100, 0, 50, 50⟩, ⟨0, 0, 80, 50⟩]).getD
            (σ.getD k 0) default).x =
          ((σ.take k).map (fun i =>
            (([⟨100, 0, 50, 50⟩, ⟨0, 0, 80, 50⟩] : List GdkRectangle).getD i default).width)).sum ∧
        ((virt_viewer_align_monitors_linear [⟨100, 0, 50, 50⟩, ⟨0, 0, 80, 50⟩]).getD
            (σ.getD k 0) default).y = 0 ∧
        ((virt_viewer_align_monitors_linear [⟨100, 0, 50, 50⟩, ⟨0, 0, 80, 50⟩]).getD
            (σ.getD k 0) default).width =
          (([⟨100, 0, 50, 50⟩, ⟨0, 0, 80, 50⟩] : List GdkRectangle).getD
            (σ.getD k 0) default).width ∧
        ((virt_viewer_align_monitors_linear [⟨100, 0, 50, 50⟩, ⟨0, 0, 80, 50⟩]).getD
            (σ.getD k 0) default).height =
          (([⟨100, 0, 50, 50⟩, ⟨0, 0, 80, 50⟩] : List GdkRectangle).getD
            (σ.getD k 0) default).height)) :=
  ⟨by decide, align_monitors_linear_spec.1 [⟨100, 0, 50, 50⟩, ⟨0, 0, 80, 50⟩] (by decide)⟩
